import Mathlib

/-!
A shallow embedding of the restaurant-name extraction resolver
`getRestaurantNameOnly` from `chrome-extension/popup.js` (lines 212-288),
together with proofs of the specified properties.

The page is modelled as a read-only surrogate exposing
  * `query`  : structural locator (CSS selector string) to the raw
               `textContent` of the first matching element, or `none`;
  * `title`  : the document title string;
  * `href`   : the current address (URL) string.

JavaScript string primitives used by the source (`trim`, `includes`,
`split(" - ")[0]`, the regex `/\/place\/([^\/]+)/`, `decodeURIComponent`,
`replace(/\+/g, ' ')`) are embedded as executable functions over `List Char`.
`decodeURIComponent` can throw `URIError` on malformed percent encodings, so
it is embedded as an `Option`-returning function, and the resolver returns
`Except Unit (Option String)`: `Except.error ()` models a thrown exception,
`Except.ok none` models the `null` ("absence") result.
-/

/-- Whitespace characters removed by the embedded `trim` (space, tab,
newline, carriage return — the ones occurring in the page strings the
source manipulates). -/
def isWsp (c : Char) : Bool :=
  c == ' ' || c == '\t' || c == '\n' || c == '\r'

/-- Embeds `String.prototype.trim`: drop whitespace from both ends. -/
def trimL (l : List Char) : List Char :=
  ((l.dropWhile isWsp).reverse.dropWhile isWsp).reverse

/-- String-level wrapper for `trimL`. -/
def trimStr (s : String) : String := String.mk (trimL s.data)

/-- Character-list prefix test (executable, structural). -/
def isPrefixL : List Char → List Char → Bool
  | [], _ => true
  | _ :: _, [] => false
  | a :: as, b :: bs => a == b && isPrefixL as bs

/-- Character-list substring test: does `pat` occur inside `l`?
Embeds `String.prototype.includes`. -/
def containsL (l pat : List Char) : Bool :=
  match l with
  | [] => pat.isEmpty
  | _ :: t => isPrefixL pat l || containsL t pat

/-- String-level wrapper: `containsStr s pat` iff `pat` occurs in `s`. -/
def containsStr (s pat : String) : Bool := containsL s.data pat.data

/-- First segment of a split: everything before the first occurrence of
`sep`, or the whole list when `sep` does not occur.  Embeds
`title.split(sep)[0]` (only the first segment of the JS split is ever
used by the source). -/
def firstSeg (sep : List Char) : List Char → List Char
  | [] => []
  | c :: rest =>
    if isPrefixL sep (c :: rest) then [] else c :: firstSeg sep rest

/-- Hexadecimal digit value, accepting both cases, as in URI decoding. -/
def hexVal (c : Char) : Option Nat :=
  if '0' ≤ c && c ≤ '9' then some (c.toNat - 48)
  else if 'A' ≤ c && c ≤ 'F' then some (c.toNat - 55)
  else if 'a' ≤ c && c ≤ 'f' then some (c.toNat - 87)
  else none

/-- First pass of `decodeURIComponent`: turn the input into a sequence of
units, where a literal character stays a `Sum.inl` character and each
`%XX` escape becomes the `Sum.inr` byte it denotes.  A `%` not followed
by two hexadecimal digits is malformed (`none` = thrown `URIError`). -/
def pctUnits : List Char → Option (List (Sum Char Nat))
  | [] => some []
  | '%' :: h1 :: h2 :: rest =>
    match hexVal h1, hexVal h2 with
    | some a, some b => (pctUnits rest).map (fun us => Sum.inr (16 * a + b) :: us)
    | _, _ => none
  | '%' :: _ => none
  | c :: rest => (pctUnits rest).map (fun us => Sum.inl c :: us)

/-- Is `b` a UTF-8 continuation byte? -/
def contB (b : Nat) : Bool := decide (0x80 ≤ b) && decide (b ≤ 0xBF)

/-- Decode a two-byte UTF-8 sequence: the lead must lie in C2..DF (which
also rules out overlong forms) and the continuation in 80..BF. -/
def twoByte (b b2 : Nat) : Option Char :=
  if 0xC2 ≤ b && b ≤ 0xDF && contB b2 then
    some (Char.ofNat ((b - 0xC0) * 64 + (b2 - 0x80)))
  else none

/-- Decode a three-byte UTF-8 sequence: lead E0..EF, two continuations,
no overlong form (code point at least 800) and no surrogate. -/
def threeByte (b b2 b3 : Nat) : Option Char :=
  let cp := (b - 0xE0) * 4096 + (b2 - 0x80) * 64 + (b3 - 0x80)
  if 0xE0 ≤ b && b ≤ 0xEF && contB b2 && contB b3 && decide (0x800 ≤ cp) &&
      !(decide (0xD800 ≤ cp) && decide (cp ≤ 0xDFFF)) then
    some (Char.ofNat cp)
  else none

/-- Decode a four-byte UTF-8 sequence: lead F0..F4, three continuations,
code point in 10000..10FFFF. -/
def fourByte (b b2 b3 b4 : Nat) : Option Char :=
  let cp := (b - 0xF0) * 262144 + (b2 - 0x80) * 4096 +
      (b3 - 0x80) * 64 + (b4 - 0x80)
  if 0xF0 ≤ b && b ≤ 0xF4 && contB b2 && contB b3 && contB b4 &&
      decide (0x10000 ≤ cp) && decide (cp ≤ 0x10FFFF) then
    some (Char.ofNat cp)
  else none

/-- Second pass of `decodeURIComponent`: assemble escape bytes into code
points following strict UTF-8 (as ECMA-262 Decode does); literal
characters pass through.  Overlong encodings, surrogate code points,
out-of-range code points and stray, invalid or missing continuation
bytes are malformed (`none` = thrown `URIError`): a lead byte in
80..C1 falls into the two-byte branch, where `twoByte` rejects it, and
a lead byte above F4 falls into the four-byte branch, where `fourByte`
rejects it. -/
def unitsToChars : List (Sum Char Nat) → Option (List Char)
  | [] => some []
  | Sum.inl c :: rest => (unitsToChars rest).map (fun cs => c :: cs)
  | Sum.inr b :: rest =>
    if b < 0x80 then
      (unitsToChars rest).map (fun cs => Char.ofNat b :: cs)
    else if b ≤ 0xDF then
      match rest with
      | Sum.inr b2 :: rest2 =>
        (twoByte b b2).bind (fun ch => (unitsToChars rest2).map (fun cs => ch :: cs))
      | _ => none
    else if b ≤ 0xEF then
      match rest with
      | Sum.inr b2 :: rest1 =>
        match rest1 with
        | Sum.inr b3 :: rest2 =>
          (threeByte b b2 b3).bind
            (fun ch => (unitsToChars rest2).map (fun cs => ch :: cs))
        | _ => none
      | _ => none
    else
      match rest with
      | Sum.inr b2 :: rest1 =>
        match rest1 with
        | Sum.inr b3 :: rest2p =>
          match rest2p with
          | Sum.inr b4 :: rest2 =>
            (fourByte b b2 b3 b4).bind
              (fun ch => (unitsToChars rest2).map (fun cs => ch :: cs))
          | _ => none
        | _ => none
      | _ => none

/-- Embeds JavaScript `decodeURIComponent`: `none` models a thrown
`URIError` on malformed percent encoding. -/
def decodeURIComponent (s : String) : Option String :=
  (pctUnits s.data).bind (fun us => (unitsToChars us).map (fun cs => String.mk cs))

/-- Embeds `.replace(/\+/g, ' ')`: every plus becomes a space. -/
def replacePlus (s : String) : String :=
  String.mk (s.data.map (fun c => if c == '+' then ' ' else c))

/-- Embeds the regex match `url.match(/\/place\/([^\/]+)/)` on the
character list: scan left to right for the first position where the
literal `/place/` is followed by at least one non-slash character, and
capture the maximal run of non-slash characters there. -/
def placeAux (pat : List Char) : List Char → Option (List Char)
  | [] => none
  | c :: rest =>
    if isPrefixL pat (c :: rest) then
      match ((c :: rest).drop pat.length).takeWhile (fun d => !(d == '/')) with
      | [] => placeAux pat rest
      | seg => some seg
    else placeAux pat rest

/-- The capture group of `url.match(/\/place\/([^\/]+)/)`, or `none`
when the regex does not match. -/
def placeMatch (url : String) : Option String :=
  (placeAux "/place/".data url.data).map (fun l => String.mk l)

/-- The page surrogate: the read-only view of the document that
`getRestaurantNameOnly` consumes (`document.querySelector(...).textContent`,
`document.title`, `window.location.href`). -/
structure Page where
  query : String → Option String
  title : String
  href : String

/-- The fixed priority list of structural locators from popup.js
lines 218-239, in source order. -/
def nameSelectors : List String := [
  "h1[data-attrid=\"title\"]",
  "h1.x3AX1-LfntMc-header-title-title",
  "[data-value=\"title\"]",
  "[data-value=\"title\"] span",
  ".DUwDvf.lfPIob",
  ".x3AX1-LfntMc-header-title-title span",
  ".fontHeadlineSmall",
  "h1",
  "[aria-level=\"1\"]",
  ".section-hero-header-title",
  ".section-hero-header-title span",
  "[role=\"main\"] h1",
  "[role=\"main\"] [aria-level=\"1\"]"
]

/-- The validity filter from popup.js lines 251-256: the candidate is kept
iff it is non-empty (JS truthiness of `name`), contains none of the
boilerplate phrases, and its length is strictly between 2 and 100. -/
def isValidName (name : String) : Bool :=
  !(name == "") &&
  !(containsStr name "Google Maps") &&
  !(containsStr name "Directions") &&
  !(containsStr name "Reviews") &&
  decide (2 < name.length) &&
  decide (name.length < 100)

/-- One iteration of the stage-1 loop body for a single selector: query
the page, trim the text of a found element, keep it only when the
validity filter accepts it. -/
def selectorYields (p : Page) (sel : String) : Option String :=
  match p.query sel with
  | some txt =>
    if isValidName (trimStr txt) then some (trimStr txt) else none
  | none => none

/-- Stage 1 (popup.js lines 241-263): the first selector in priority
order whose match passes the validity filter wins. -/
def stage1 (p : Page) : Option String :=
  nameSelectors.findSome? (selectorYields p)

/-- Stage 2, the title fallback (popup.js lines 266-274): skipped when the
title is empty or contains "Google Maps" anywhere; otherwise return the
trimmed first " - "-segment when it is non-empty and longer than 2. -/
def titleStage (title : String) : Option String :=
  if title == "" || containsStr title "Google Maps" then none
  else
    let p0 := String.mk (firstSeg " - ".data title.data)
    if p0 == "" then none
    else if decide (2 < (trimStr p0).length) then some (trimStr p0)
    else none

/-- Stage 3, the address fallback (popup.js lines 277-284): on a
`/place/` match, percent-decode the captured segment (this can throw,
modelled by `Except.error ()`) and replace every plus with a space. -/
def addressStage (url : String) : Except Unit (Option String) :=
  match placeMatch url with
  | some seg =>
    match decodeURIComponent seg with
    | some d => Except.ok (some (replacePlus d))
    | none => Except.error ()
  | none => Except.ok none

/-- The resolver `getRestaurantNameOnly` (popup.js lines 212-288):
stage 1, then the title fallback, then the address fallback, `none`
when everything fails. -/
def getRestaurantNameOnly (p : Page) : Except Unit (Option String) :=
  match stage1 p with
  | some n => Except.ok (some n)
  | none =>
    match titleStage p.title with
    | some t => Except.ok (some t)
    | none => addressStage p.href

/-- ASCII apostrophe (U+0027), written via its code point. -/
def apos : Char := Char.ofNat 39

/-- The name used in the specified examples. -/
def luigiName : String := "Luigi" ++ String.singleton apos ++ "s Pizzeria"

/-- The percent-decoded but not yet plus-replaced form of the segment. -/
def luigiPlus : String := "Luigi" ++ String.singleton apos ++ "s+Pizzeria"

/-- Document title with the brand marker present as a suffix. -/
def luigiTitle : String := luigiName ++ " - Google Maps"

/-- Concrete page for claim C1: no structural match, title with the marker
as a suffix, non-matching address. -/
def pg1 : Page := ⟨fun _ => none, luigiTitle, "https://www.example.com/"⟩

/-- Concrete page for claim C2: no structural match, marker title, and a
`/place/` segment that is malformed percent encoding. -/
def pg2 : Page := ⟨fun _ => none, "Google Maps", "https://maps.example/place/%"⟩

/-- Query function matching two locators of different priority. -/
def pg3query : String → Option String := fun s =>
  if s == "h1" then some "Luigi Diner"
  else if s == "[role=\"main\"] h1" then some "Mario Diner"
  else none

/-- Concrete page for claim C3: two simultaneously matching locators. -/
def pg3 : Page := ⟨pg3query, "Untitled", "https://www.example.com/"⟩

/-- Query function whose every match is boilerplate (equals "Reviews", or
has length 1). -/
def pg4query : String → Option String := fun s =>
  if s == "h1" then some "Reviews"
  else if s == ".DUwDvf.lfPIob" then some "a"
  else none

/-- Concrete page for claim C4: every structural match is boilerplate and
the title is usable. -/
def pg4 : Page := ⟨pg4query, "Pizza Palace - Menu", "https://www.example.com/"⟩

/-- Concrete page for claim C5: only the address matches. -/
def pg5 : Page :=
  ⟨fun _ => none, "Google Maps",
    "https://www.google.com/maps/place/Luigi%27s+Pizzeria/@40.7,-74.0"⟩

/-- Concrete page for claim C6: marker title and a matching address. -/
def pg6 : Page := ⟨fun _ => none, "Google Maps", "https://maps.example/place/Taco+Bell"⟩

/-- Concrete page for claim C7: everything fails. -/
def pg7 : Page := ⟨fun _ => none, "Google Maps", "https://www.example.com/foo"⟩

/-- Concrete page for claim C8. -/
def pg8 : Page := ⟨fun _ => none, "Some Cafe - Menu", "https://www.example.com/"⟩

/-- Concrete page for claim C9: title fallback returns a string containing
"Directions". -/
def pg9a : Page := ⟨fun _ => none, "Directions Cafe - Menu", "https://www.example.com/"⟩

/-- A 120-character name, beyond the filter's upper length bound. -/
def longA : String := String.mk (List.replicate 120 'A')

/-- Concrete page for claim C9: title fallback returns a 120-character
string. -/
def pg9b : Page := ⟨fun _ => none, longA ++ " - Menu", "https://www.example.com/"⟩

/-- Concrete page for claim C9: address fallback returns a string
containing "Reviews". -/
def pg9c : Page := ⟨fun _ => none, "Google Maps", "https://maps.example/place/Best+Reviews+Diner"⟩

/-- Concrete page for claim C10: the `/place/` segment is a lone plus,
decoding to a single space. -/
def pg10 : Page := ⟨fun _ => none, "Google Maps", "https://maps.example/place/+"⟩

/-- Helper: `findSome?` returns the value produced at the first index whose
image is not `none`. -/
theorem findSome_first {α β : Type} (f : α → Option β) :
    ∀ (l : List α) (i : Nat) (hi : i < l.length) (b : β),
      (∀ j (hj : j < i), f (l.get ⟨j, Nat.lt_trans hj hi⟩) = none) →
      f (l.get ⟨i, hi⟩) = some b → l.findSome? f = some b := by
  intro l
  induction l with
  | nil => intro i hi; exact absurd hi (Nat.not_lt_zero i)
  | cons a t ih =>
    intro i hi b hprev hcur
    cases i with
    | zero =>
      rw [List.findSome?_cons]
      have ha : f a = some b := hcur
      rw [ha]
    | succ i' =>
      have ha : f a = none := hprev 0 (Nat.succ_pos i')
      rw [List.findSome?_cons, ha]
      exact ih i' (Nat.lt_of_succ_lt_succ hi) b
        (fun j hj => hprev (j + 1) (Nat.succ_lt_succ hj)) hcur

/-- Helper: stage 1 fails when every selector yields nothing valid. -/
theorem stage1_eq_none (p : Page)
    (h : ∀ sel ∈ nameSelectors, selectorYields p sel = none) :
    stage1 p = none := by
  unfold stage1
  exact List.findSome?_eq_none_iff.mpr h

/-- Helper: a title containing the brand marker makes the title stage skip. -/
theorem titleStage_of_marker (t : String)
    (h : containsStr t "Google Maps" = true) : titleStage t = none := by
  unfold titleStage
  rw [h]
  simp

/-- Claim C1, counterexample: with the title containing the brand marker as
a suffix, the resolver does NOT return the first title segment; at this
concrete page it returns absence instead. -/
theorem c1_counterexample :
    getRestaurantNameOnly pg1 = Except.ok none ∧
    getRestaurantNameOnly pg1 ≠ Except.ok (some luigiName) := by
  have h : getRestaurantNameOnly pg1 = Except.ok none := rfl
  exact ⟨h, by rw [h]; simp⟩

/-- Claim C1, amended: when no structural match is valid and the document
title contains the brand marker "Google Maps" anywhere (in particular as a
suffix), the resolver skips the title strategy entirely — the
split-and-take-first-segment rule is never applied — and proceeds to the
address strategy. -/
theorem c1_title_with_marker_skips_split (p : Page)
    (h1 : stage1 p = none) (h2 : containsStr p.title "Google Maps" = true) :
    getRestaurantNameOnly p = addressStage p.href := by
  simp [getRestaurantNameOnly, h1, titleStage_of_marker p.title h2]

/-- Witness for the amended claim C1 at the concrete page `pg1`. -/
theorem c1_witness : getRestaurantNameOnly pg1 = Except.ok none :=
  c1_title_with_marker_skips_split pg1 rfl rfl

/-- Claim C2, counterexample: the resolver DOES raise (modelled as
`Except.error ()`) on a page whose `/place/` address segment is malformed
percent encoding — absence is not its sole failure signal. -/
theorem c2_counterexample : getRestaurantNameOnly pg2 = Except.error () := rfl

/-- Claim C2, amended: the only way the resolver can raise is the address
fallback's percent decoding — whenever it raises, the address contains a
`/place/` segment whose percent encoding is malformed (`decodeURIComponent`
throws there); in every other situation absence is the failure signal. -/
theorem c2_error_only_from_malformed_place (p : Page)
    (h : getRestaurantNameOnly p = Except.error ()) :
    ∃ seg, placeMatch p.href = some seg ∧ decodeURIComponent seg = none := by
  unfold getRestaurantNameOnly at h
  split at h
  · simp at h
  · split at h
    · simp at h
    · unfold addressStage at h
      split at h
      case _ seg heq =>
        split at h
        · simp at h
        case _ hd => exact ⟨seg, heq, hd⟩
      case _ heq => simp at h

/-- Witness for the amended claim C2 at the concrete page `pg2`. -/
theorem c2_witness :
    ∃ seg, placeMatch pg2.href = some seg ∧ decodeURIComponent seg = none :=
  c2_error_only_from_malformed_place pg2 rfl

/-- Claim C6: with no valid structural match and a title that is exactly
"Google Maps", the resolver skips the title strategy and proceeds to the
address strategy. -/
theorem c6_marker_title_proceeds_to_address (p : Page)
    (h1 : stage1 p = none) (h2 : p.title = "Google Maps") :
    getRestaurantNameOnly p = addressStage p.href := by
  have hm : containsStr p.title "Google Maps" = true := by rw [h2]; decide
  simp [getRestaurantNameOnly, h1, titleStage_of_marker p.title hm]

/-- Witness for claim C6 at the concrete page `pg6`: the address strategy
is actually reached and produces the decoded segment. -/
theorem c6_witness : getRestaurantNameOnly pg6 = Except.ok (some "Taco Bell") :=
  c6_marker_title_proceeds_to_address pg6 rfl rfl

/-- Claim C7: with no structural match at all, a title equal to the brand
marker, and an address not matching the `/place/` template, the resolver
returns absence (`Except.ok none`) and never the empty string. -/
theorem c7_all_stages_fail_absence (p : Page)
    (h1 : ∀ sel ∈ nameSelectors, p.query sel = none)
    (h2 : p.title = "Google Maps") (h3 : placeMatch p.href = none) :
    getRestaurantNameOnly p = Except.ok none ∧
    getRestaurantNameOnly p ≠ Except.ok (some "") := by
  have hs : stage1 p = none :=
    stage1_eq_none p (fun sel hsel => by simp [selectorYields, h1 sel hsel])
  have hm : containsStr p.title "Google Maps" = true := by rw [h2]; decide
  have hres : getRestaurantNameOnly p = Except.ok none := by
    simp [getRestaurantNameOnly, hs, titleStage_of_marker p.title hm,
      addressStage, h3]
  exact ⟨hres, by rw [hres]; simp⟩

/-- Witness for claim C7 at the concrete page `pg7`. -/
theorem c7_witness :
    getRestaurantNameOnly pg7 = Except.ok none ∧
    getRestaurantNameOnly pg7 ≠ Except.ok (some "") :=
  c7_all_stages_fail_absence pg7 (fun _ _ => rfl) rfl rfl

/-- Claim C8: the resolver is a pure, deterministic, read-only function of
the page surrogate — two page surrogates with the same structural query
behaviour, title, and address yield identical results (and the embedding
itself is a pure function, performing no mutation). -/
theorem c8_deterministic (p q : Page)
    (hq : ∀ sel, p.query sel = q.query sel)
    (ht : p.title = q.title) (hh : p.href = q.href) :
    getRestaurantNameOnly p = getRestaurantNameOnly q := by
  have hpq : p = q := by
    obtain ⟨pq, pt, ph⟩ := p
    obtain ⟨qq, qt, qh⟩ := q
    have h1 : pq = qq := funext hq
    subst h1
    have h2 : pt = qt := ht
    subst h2
    have h3 : ph = qh := hh
    subst h3
    rfl
  rw [hpq]

/-- Witness for claim C8: calling the resolver twice on the unchanged page
`pg8` yields identical results. -/
theorem c8_witness : getRestaurantNameOnly pg8 = getRestaurantNameOnly pg8 :=
  c8_deterministic pg8 pg8 (fun _ => rfl) rfl rfl

/-- Claim C3: when a structural locator matches with text passing the
validity filter and every earlier (higher-priority) locator yields
nothing valid, the resolver returns exactly that locator's trimmed text. -/
theorem c3_first_valid_locator_wins (p : Page) (i : Nat)
    (hi : i < nameSelectors.length) (txt : String)
    (hq : p.query (nameSelectors.get ⟨i, hi⟩) = some txt)
    (hv : isValidName (trimStr txt) = true)
    (hprev : ∀ j (hj : j < i),
      selectorYields p (nameSelectors.get ⟨j, Nat.lt_trans hj hi⟩) = none) :
    getRestaurantNameOnly p = Except.ok (some (trimStr txt)) := by
  have hsel : selectorYields p (nameSelectors.get ⟨i, hi⟩) = some (trimStr txt) := by
    unfold selectorYields
    rw [hq]
    simp [hv]
  have hstage : stage1 p = some (trimStr txt) :=
    findSome_first (selectorYields p) nameSelectors i hi (trimStr txt) hprev hsel
  simp [getRestaurantNameOnly, hstage]

/-- Witness for claim C3: on `pg3` both the locator "h1" (position 7) and
the lower-priority final locator match; the higher-priority text wins. -/
theorem c3_witness : getRestaurantNameOnly pg3 = Except.ok (some "Luigi Diner") :=
  c3_first_valid_locator_wins pg3 7 (by decide) "Luigi Diner" rfl (by decide) (by decide)

/-- Claim C4: the validity filter rejects exactly the candidates that
contain one of the boilerplate phrases or have length at most 2 or at
least 100; consequently a page on which every structural match fails the
filter falls through past stage 1 to the title strategy. -/
theorem c4_filter_rejects_exactly_boilerplate :
    (∀ name : String, isValidName name = false ↔
      (containsStr name "Google Maps" = true ∨
       containsStr name "Directions" = true ∨
       containsStr name "Reviews" = true ∨
       name.length ≤ 2 ∨ 100 ≤ name.length)) ∧
    (∀ p : Page,
      (∀ sel ∈ nameSelectors,
        ((p.query sel).all fun txt => !(isValidName (trimStr txt))) = true) →
      getRestaurantNameOnly p =
        (match titleStage p.title with
         | some t => Except.ok (some t)
         | none => addressStage p.href)) := by
  constructor
  · intro name
    have hval : isValidName name = true ↔
        (¬(name = "") ∧ containsStr name "Google Maps" = false ∧
         containsStr name "Directions" = false ∧
         containsStr name "Reviews" = false ∧
         2 < name.length ∧ name.length < 100) := by
      simp [isValidName, and_assoc]
    constructor
    · intro h
      by_contra hc
      push_neg at hc
      obtain ⟨h1, h2, h3, h4, h5⟩ := hc
      have hne : ¬(name = "") := by
        intro he
        rw [he] at h4
        exact absurd h4 (by decide)
      have htrue := hval.mpr ⟨hne, Bool.eq_false_iff.mpr h1,
        Bool.eq_false_iff.mpr h2, Bool.eq_false_iff.mpr h3, h4, h5⟩
      rw [h] at htrue
      exact absurd htrue (by decide)
    · intro h
      cases hb : isValidName name with
      | false => rfl
      | true =>
        obtain ⟨hne, hgm, hdir, hrev, hl1, hl2⟩ := hval.mp hb
        rcases h with h | h | h | h | h
        · rw [hgm] at h; exact absurd h (by decide)
        · rw [hdir] at h; exact absurd h (by decide)
        · rw [hrev] at h; exact absurd h (by decide)
        · omega
        · omega
  · intro p h
    have hs : stage1 p = none := by
      apply stage1_eq_none
      intro sel hsel
      have hx := h sel hsel
      unfold selectorYields
      cases hq : p.query sel with
      | none => rfl
      | some txt =>
        rw [hq] at hx
        simp only [Option.all_some, Bool.not_eq_true'] at hx
        simp [hx]
    simp [getRestaurantNameOnly, hs]

/-- Witness for claim C4: "Reviews" is rejected by the filter, and on
`pg4` — whose every structural match is boilerplate — the resolver falls
through to the title strategy and returns the title's first segment. -/
theorem c4_witness :
    isValidName "Reviews" = false ∧
    getRestaurantNameOnly pg4 = Except.ok (some "Pizza Palace") :=
  ⟨(c4_filter_rejects_exactly_boilerplate.1 "Reviews").mpr
    (Or.inr (Or.inr (Or.inl (by decide)))),
   c4_filter_rejects_exactly_boilerplate.2 pg4 (by decide)⟩

/-- Claim C5: with no valid structural match and a failing title stage,
an address matching the `/place/` template makes the resolver return the
percent-decoded segment with every plus replaced by a space. -/
theorem c5_address_fallback_decodes_place_segment (p : Page) (seg d : String)
    (h1 : stage1 p = none) (h2 : titleStage p.title = none)
    (h3 : placeMatch p.href = some seg) (h4 : decodeURIComponent seg = some d) :
    getRestaurantNameOnly p = Except.ok (some (replacePlus d)) := by
  simp [getRestaurantNameOnly, addressStage, h1, h2, h3, h4]

/-- Witness for claim C5 at the concrete page `pg5` with the address from
the specification. -/
theorem c5_witness : getRestaurantNameOnly pg5 = Except.ok (some luigiName) :=
  c5_address_fallback_decodes_place_segment pg5 "Luigi%27s+Pizzeria" luigiPlus
    rfl rfl rfl rfl

set_option maxRecDepth 4000 in
/-- Claim C9: the validity filter binds only stage 1 — the title fallback
returns strings containing "Directions" or 120 characters long, and the
address fallback returns a string containing "Reviews"; each of these
would fail the filter. -/
theorem c9_filter_only_applies_to_stage1 :
    (getRestaurantNameOnly pg9a = Except.ok (some "Directions Cafe") ∧
     isValidName "Directions Cafe" = false) ∧
    (getRestaurantNameOnly pg9b = Except.ok (some longA) ∧
     100 ≤ longA.length ∧ isValidName longA = false) ∧
    (getRestaurantNameOnly pg9c = Except.ok (some "Best Reviews Diner") ∧
     isValidName "Best Reviews Diner" = false) :=
  ⟨⟨rfl, by decide⟩, ⟨rfl, by decide, by decide⟩, ⟨rfl, by decide⟩⟩

/-- Helper: a captured `/place/` segment is never the empty list (the
regex requires at least one non-slash character). -/
theorem placeAux_ne_nil (pat : List Char) :
    ∀ (l seg : List Char), placeAux pat l = some seg → seg ≠ [] := by
  intro l
  induction l with
  | nil => intro seg h; exact absurd h (by simp [placeAux])
  | cons c rest ih =>
    intro seg h
    unfold placeAux at h
    split at h
    · split at h
      · exact ih seg h
      · injection h with h'
        intro he
        simp_all
    · exact ih seg h

/-- Helper: percent-escape scanning of a non-empty input never succeeds
with an empty unit list. -/
theorem pctUnits_ne_nil :
    ∀ (l : List Char) (us : List (Sum Char Nat)),
      pctUnits l = some us → l ≠ [] → us ≠ [] := by
  intro l us h hl
  cases l with
  | nil => exact absurd rfl hl
  | cons c rest =>
    unfold pctUnits at h
    iterate 3 (all_goals (try split at h))
    all_goals (
      try (obtain ⟨us1, hx, hfx⟩ := Option.map_eq_some'.mp h
           rw [← hfx]
           simp))
    all_goals simp_all

/-- Helper: UTF-8 assembly of a non-empty unit list never succeeds with
an empty character list. -/
theorem unitsToChars_ne_nil :
    ∀ (us : List (Sum Char Nat)) (cs : List Char),
      unitsToChars us = some cs → us ≠ [] → cs ≠ [] := by
  intro us cs h hu
  cases us with
  | nil => exact absurd rfl hu
  | cons u rest =>
    rcases u with c | b
    · have e : unitsToChars (Sum.inl c :: rest) =
          (unitsToChars rest).map (fun cs => c :: cs) := rfl
      rw [e] at h
      obtain ⟨cs1, hx, hfx⟩ := Option.map_eq_some'.mp h
      intro he
      rw [← hfx] at he
      exact absurd he (List.cons_ne_nil _ _)
    · unfold unitsToChars at h
      iterate 8 (all_goals (try split at h))
      all_goals (
        try (obtain ⟨ch, hch, h2⟩ := Option.bind_eq_some.mp h
             obtain ⟨cs1, hx, hfx⟩ := Option.map_eq_some'.mp h2
             intro he
             rw [← hfx] at he
             exact absurd he (List.cons_ne_nil _ _)))
      all_goals (
        try (obtain ⟨cs1, hx, hfx⟩ := Option.map_eq_some'.mp h
             intro he
             rw [← hfx] at he
             exact absurd he (List.cons_ne_nil _ _)))
      all_goals simp_all

/-- Helper: a successful percent decode of a non-empty string is
non-empty. -/
theorem decode_ne_empty (s d : String) (hs : s ≠ "")
    (h : decodeURIComponent s = some d) : d ≠ "" := by
  unfold decodeURIComponent at h
  obtain ⟨us, hus, hrest⟩ := Option.bind_eq_some.mp h
  obtain ⟨cs, hcs, hfx⟩ := Option.map_eq_some'.mp hrest
  have hl : s.data ≠ [] := by
    intro he
    apply hs
    obtain ⟨l⟩ := s
    exact congrArg String.mk he
  have hus_ne : us ≠ [] := pctUnits_ne_nil s.data us hus hl
  have hcs_ne : cs ≠ [] := unitsToChars_ne_nil us cs hcs hus_ne
  rw [← hfx]
  intro he
  exact hcs_ne (congrArg String.data he)

/-- Helper: replacing pluses with spaces keeps the length. -/
theorem replacePlus_length (s : String) : (replacePlus s).length = s.length :=
  List.length_map s.data _

set_option maxRecDepth 4000 in
/-- Claim C10: the address-fallback result is returned untrimmed and
unchecked — every captured `/place/` segment is non-empty and so is the
returned string, yet a segment decoding to a single space is returned as
the whitespace-only string " " rather than falling through to absence. -/
theorem c10_address_untrimmed_nonempty :
    (∀ url seg d, placeMatch url = some seg → decodeURIComponent seg = some d →
      addressStage url = Except.ok (some (replacePlus d)) ∧
      seg ≠ "" ∧ replacePlus d ≠ "") ∧
    (getRestaurantNameOnly pg10 = Except.ok (some " ") ∧ trimStr " " = "") := by
  constructor
  · intro url seg d hm hd
    have hsegne : seg ≠ "" := by
      unfold placeMatch at hm
      obtain ⟨l, hl, hfx⟩ := Option.map_eq_some'.mp hm
      have hne := placeAux_ne_nil "/place/".data url.data l hl
      rw [← hfx]
      intro he
      exact hne (congrArg String.data he)
    refine ⟨by simp [addressStage, hm, hd], hsegne, ?_⟩
    have hdne : d ≠ "" := decode_ne_empty seg d hsegne hd
    intro he
    apply hdne
    have hlen : (replacePlus d).length = 0 := by rw [he]; rfl
    rw [replacePlus_length] at hlen
    obtain ⟨l⟩ := d
    cases l with
    | nil => rfl
    | cons a t => simp [String.length] at hlen
  · exact ⟨rfl, rfl⟩

/-- Witness for claim C10 at the address whose segment is a lone plus. -/
theorem c10_witness :
    addressStage "https://maps.example/place/+" = Except.ok (some " ") ∧
    ("+" : String) ≠ "" ∧ (" " : String) ≠ "" :=
  c10_address_untrimmed_nonempty.1 "https://maps.example/place/+" "+" "+" rfl rfl
